import Mathlib

/-!
Shallow embedding of `src/main.rs` of the `watch` utility: a file watcher that
polls a single file at a fixed interval and writes a timestamped backup copy
whenever the content hash changes.

Bytes are modelled as `Nat` values below 256, file contents as `List Nat`, and
the 128-bit fingerprint as a `Nat` below `2 ^ 128`.  The hashing algorithm is
SipHash-2-4 with 128-bit output and the all-zero key, which is what
`siphasher::sip128::SipHasher::new()` provides.
-/

set_option maxRecDepth 10000

set_option maxHeartbeats 2000000

namespace Watch

/-- Wrap-around modulus for the 64-bit state words of SipHash. -/
def M64 : Nat := 2 ^ 64

/-- Rotate a 64-bit value left by `r` bits (`0 < r < 64`). -/
def rotl64 (x r : Nat) : Nat := x * 2 ^ r % M64 + x / 2 ^ (64 - r)

/-- The four 64-bit state words of the SipHash permutation. -/
structure SipState where
  v0 : Nat
  v1 : Nat
  v2 : Nat
  v3 : Nat
  deriving DecidableEq

/-- One SIPROUND of the SipHash reference algorithm, on the 64-bit state words. -/
def sipround (s : SipState) : SipState :=
  let a0 := (s.v0 + s.v1) % M64
  let b1 := rotl64 s.v1 13 ^^^ a0
  let a2 := rotl64 a0 32
  let c2 := (s.v2 + s.v3) % M64
  let d3 := rotl64 s.v3 16 ^^^ c2
  let e0 := (a2 + d3) % M64
  let f3 := rotl64 d3 21 ^^^ e0
  let g2 := (c2 + b1) % M64
  let h1 := rotl64 b1 17 ^^^ g2
  let i2 := rotl64 g2 32
  ⟨e0, h1, i2, f3⟩

/-- Iterate `sipround` a fixed number of times. -/
def sipRounds : Nat → SipState → SipState
  | 0, s => s
  | n + 1, s => sipRounds n (sipround s)

/-- Compression of one 64-bit little-endian message word: xor into `v3`,
two rounds (the "2" of SipHash-2-4), then xor into `v0`. -/
def sipCompress (s : SipState) (m : Nat) : SipState :=
  let s1 : SipState := ⟨s.v0, s.v1, s.v2, s.v3 ^^^ m⟩
  let s2 := sipRounds 2 s1
  ⟨s2.v0 ^^^ m, s2.v1, s2.v2, s2.v3⟩

/-- Streaming state of the hasher: permutation state, the little-endian value
of the pending (not yet compressed) tail bytes, how many such bytes there are
(0–7), and the total byte count seen so far. -/
structure SipStream where
  st : SipState
  acc : Nat
  accLen : Nat
  len : Nat
  deriving DecidableEq

/-- Feed one byte into the streaming hasher, compressing whenever a full
64-bit word has accumulated.  This mirrors the streaming `Hasher::write`
of the `siphasher` crate, one byte at a time. -/
def sipPush (s : SipStream) (b : Nat) : SipStream :=
  let acc := s.acc + b * 2 ^ (8 * s.accLen)
  if s.accLen = 7 then ⟨sipCompress s.st acc, 0, 0, s.len + 1⟩
  else ⟨s.st, acc, s.accLen + 1, s.len + 1⟩

/-- Initial SipHash state for key `(k0, k1)`, with the extra `v1 ^= 0xee`
of the 128-bit output variant. -/
def sipInit (k0 k1 : Nat) : SipState :=
  ⟨k0 ^^^ 0x736f6d6570736575, k1 ^^^ 0x646f72616e646f6d ^^^ 0xee,
   k0 ^^^ 0x6c7967656e657261, k1 ^^^ 0x7465646279746573⟩

/-- Finalization of the 128-bit SipHash: compress the last block (input length
modulo 256 in the top byte, pending tail bytes below), then the two
four-round output extractions.  The result is `h1 + h2 * 2 ^ 64`, matching
the crate's conversion of `Hash128 \x7b h1, h2 \x7d` into a `u128`. -/
def sipFinish (s : SipStream) : Nat :=
  let b := s.len % 256 * 2 ^ 56 + s.acc
  let s2 := sipCompress s.st b
  let s3 := sipRounds 4 ⟨s2.v0, s2.v1, s2.v2 ^^^ 0xee, s2.v3⟩
  let h1 := s3.v0 ^^^ s3.v1 ^^^ s3.v2 ^^^ s3.v3
  let s4 := sipRounds 4 ⟨s3.v0, s3.v1 ^^^ 0xdd, s3.v2, s3.v3⟩
  let h2 := s4.v0 ^^^ s4.v1 ^^^ s4.v2 ^^^ s4.v3
  h1 + h2 * 2 ^ 64

/-- SipHash-2-4 with 128-bit output (`siphasher::sip128`) of a byte sequence,
under key `(k0, k1)`. -/
def siphash128 (k0 k1 : Nat) (msg : List Nat) : Nat :=
  sipFinish (msg.foldl sipPush ⟨sipInit k0 k1, 0, 0, 0⟩)

/-- Size of the stack read buffer in `hash_file`: `let mut hash_buffer = [0u8; 4096]`. -/
def hash_buffer_size : Nat := 4096

/-- Effect of one successful `file.read(&mut hash_buffer)` returning `chunk`
on the buffer: the first `chunk.length` bytes are overwritten, the rest keeps
its previous contents. -/
def updateBuffer (buf chunk : List Nat) : List Nat := chunk ++ buf.drop chunk.length

/-- The byte sequence fed to the hasher by `hash_file`'s read loop, starting
from buffer contents `buf`, when the successive reads return `chunks`.  After
every successful read of `n > 0` bytes the loop executes
`hasher.write(&hash_buffer)` — the whole 4096-byte buffer, not only the `n`
bytes just read. -/
def hasherInput (buf : List Nat) : List (List Nat) → List Nat
  | [] => []
  | c :: cs =>
    let buf2 := updateBuffer buf c
    buf2 ++ hasherInput buf2 cs

/-- Digest computed by `hash_file` on a successful open whose successive reads
return the byte runs `chunks` (each read returns between 1 and 4096 bytes;
a read returning 0 ends the loop).  The buffer starts as 4096 zero bytes. -/
def hash_file_chunks (chunks : List (List Nat)) : Nat :=
  siphash128 0 0 (hasherInput (List.replicate hash_buffer_size 0) chunks)

/-- Embedding of `hash_file`: `none` models an open failure or a failed read
(the function returns `None`); `some chunks` models a successful open whose
reads return `chunks`. -/
def hash_file (readResult : Option (List (List Nat))) : Option Nat :=
  readResult.map hash_file_chunks

/-- `chunks` is a possible sequence of read results for a file whose content
is `content`: the reads return the content in order, each read returns at
least one byte and at most the buffer size. -/
def IsChunking (content : List Nat) (chunks : List (List Nat)) : Prop :=
  chunks.flatten = content ∧ ∀ c ∈ chunks, c ≠ [] ∧ c.length ≤ hash_buffer_size

instance (content : List Nat) (chunks : List (List Nat)) : Decidable (IsChunking content chunks) :=
  inferInstanceAs
    (Decidable (chunks.flatten = content ∧ ∀ c ∈ chunks, c ≠ [] ∧ c.length ≤ hash_buffer_size))

/-! Evaluation machinery for concrete digests.  A run of eight zero bytes fed
to the stream (starting at an empty tail accumulator) amounts to one
compression of the zero word, so a run of `8 * k` zero bytes is `k` such
compressions; this lets the 4096-byte buffer snapshots be evaluated in
bounded-depth stages. -/

/-- Compression of one all-zero message word. -/
def zstep (s : SipState) : SipState := sipCompress s 0

/-- `k`-fold compression of all-zero message words. -/
def ziter : Nat → SipState → SipState
  | 0, s => s
  | k + 1, s => ziter k (zstep s)

theorem ziter_add (a b : Nat) (s : SipState) : ziter (a + b) s = ziter b (ziter a s) := by
  induction a generalizing s with
  | zero => rw [Nat.zero_add]; rfl
  | succ a ih =>
    have h : a + 1 + b = a + b + 1 := by omega
    rw [h]
    show ziter (a + b) (zstep s) = _
    rw [ih (zstep s)]
    rfl

theorem foldl_zero_block (st : SipState) (len : Nat) :
    List.foldl sipPush ⟨st, 0, 0, len⟩ (List.replicate 8 0) = ⟨zstep st, 0, 0, len + 8⟩ := by
  show List.foldl sipPush ⟨st, 0, 0, len⟩ [0, 0, 0, 0, 0, 0, 0, 0] = _
  simp [sipPush, zstep]

theorem foldl_zeros (k : Nat) (st : SipState) (len : Nat) :
    List.foldl sipPush ⟨st, 0, 0, len⟩ (List.replicate (8 * k) 0) =
      ⟨ziter k st, 0, 0, len + 8 * k⟩ := by
  induction k generalizing st len with
  | zero => simp [ziter]
  | succ k ih =>
    have h8 : 8 * (k + 1) = 8 + 8 * k := by omega
    rw [h8, List.replicate_add, List.foldl_append, foldl_zero_block, ih]
    have hz : ziter k (zstep st) = ziter (k + 1) st := rfl
    rw [hz]
    congr 1
    omega

theorem replicate_drop (a : Nat) : ∀ m n : Nat, (List.replicate (m + n) a).drop m = List.replicate n a := by
  intro m
  induction m with
  | zero => intro n; rw [Nat.zero_add]; rfl
  | succ m ih =>
    intro n
    rw [Nat.succ_add]
    show (List.replicate (m + n) a).drop m = _
    exact ih n

/-- The byte stream hashed for content `[1, 2]` delivered by a single read. -/
theorem msg_one_read : hasherInput (List.replicate hash_buffer_size 0) [[1, 2]] =
    [1, 2, 0, 0, 0, 0, 0, 0] ++ List.replicate (8 * 511) 0 := by
  show ([1, 2] ++ (List.replicate hash_buffer_size 0).drop 2) ++ [] = _
  rw [List.append_nil, show hash_buffer_size = 2 + 4094 from rfl, replicate_drop,
    show (4094 : Nat) = 6 + 8 * 511 from rfl, List.replicate_add]
  rfl

/-- The byte stream hashed for content `[1, 2]` delivered by two one-byte
reads: each read re-feeds the whole 4096-byte buffer. -/
theorem msg_two_reads : hasherInput (List.replicate hash_buffer_size 0) [[1], [2]] =
    ([1, 0, 0, 0, 0, 0, 0, 0] ++ List.replicate (8 * 511) 0) ++
      ([2, 0, 0, 0, 0, 0, 0, 0] ++ List.replicate (8 * 511) 0) := by
  have hbuf1 : updateBuffer (List.replicate hash_buffer_size 0) [1] =
      [1, 0, 0, 0, 0, 0, 0, 0] ++ List.replicate (8 * 511) 0 := by
    show [1] ++ (List.replicate hash_buffer_size 0).drop 1 = _
    rw [show hash_buffer_size = 1 + 4095 from rfl, replicate_drop,
      show (4095 : Nat) = 7 + 8 * 511 from rfl, List.replicate_add]
    rfl
  have hbuf2 : updateBuffer ([1, 0, 0, 0, 0, 0, 0, 0] ++ List.replicate (8 * 511) 0) [2] =
      [2, 0, 0, 0, 0, 0, 0, 0] ++ List.replicate (8 * 511) 0 := rfl
  have step1 : hasherInput (List.replicate hash_buffer_size 0) [[1], [2]] =
      updateBuffer (List.replicate hash_buffer_size 0) [1] ++
        hasherInput (updateBuffer (List.replicate hash_buffer_size 0) [1]) [[2]] := rfl
  rw [step1, hbuf1]
  have step2 : hasherInput ([1, 0, 0, 0, 0, 0, 0, 0] ++ List.replicate (8 * 511) 0) [[2]] =
      updateBuffer ([1, 0, 0, 0, 0, 0, 0, 0] ++ List.replicate (8 * 511) 0) [2] ++ [] := rfl
  rw [step2, hbuf2, List.append_nil]

theorem zx1 : ziter 64 ⟨0x86b63a61741b92a0, 0x27199fe1436c2cf5, 0xe127a9e133702f56, 0xe9b47e5cdf07d758⟩ = ⟨0xd3e8de9c26de9e60, 0x688e1cd401871a71, 0x2dc5c1dee2e7f798, 0x9c5ce457a74164ca⟩ := by decide

theorem zx2 : ziter 64 ⟨0xd3e8de9c26de9e60, 0x688e1cd401871a71, 0x2dc5c1dee2e7f798, 0x9c5ce457a74164ca⟩ = ⟨0x88aac31fc1225c45, 0xe04a90e113ae441e, 0xe70764d4674b1f7c, 0x7a51d045a2211efa⟩ := by decide

theorem zx3 : ziter 64 ⟨0x88aac31fc1225c45, 0xe04a90e113ae441e, 0xe70764d4674b1f7c, 0x7a51d045a2211efa⟩ = ⟨0xa0f0e88af7291f8c, 0x923464ec330ea8e3, 0x2f9629bac6217142, 0xad3a67953f726224⟩ := by decide

theorem zx4 : ziter 64 ⟨0xa0f0e88af7291f8c, 0x923464ec330ea8e3, 0x2f9629bac6217142, 0xad3a67953f726224⟩ = ⟨0x6ff225003b78f237, 0xb3aec46c28d3bc26, 0xdfae37e2b9650216, 0x161577b4ac54cd19⟩ := by decide

theorem zx5 : ziter 64 ⟨0x6ff225003b78f237, 0xb3aec46c28d3bc26, 0xdfae37e2b9650216, 0x161577b4ac54cd19⟩ = ⟨0x84f55bad5695ad40, 0x27c391edf0826b1b, 0xd7df315d57f8cf62, 0x7113aec43165118a⟩ := by decide

theorem zx6 : ziter 64 ⟨0x84f55bad5695ad40, 0x27c391edf0826b1b, 0xd7df315d57f8cf62, 0x7113aec43165118a⟩ = ⟨0x55feda6f65d305be, 0x405c8de7f1dd7ae7, 0x9e625e1f87425a45, 0x337bf52221348da8⟩ := by decide

theorem zx7 : ziter 64 ⟨0x55feda6f65d305be, 0x405c8de7f1dd7ae7, 0x9e625e1f87425a45, 0x337bf52221348da8⟩ = ⟨0xa507f5b2496d3143, 0xb015e4317e38ad81, 0x03e219688d4167a9, 0xf4a3b7f58e832024⟩ := by decide

theorem zx8 : ziter 63 ⟨0xa507f5b2496d3143, 0xb015e4317e38ad81, 0x03e219688d4167a9, 0xf4a3b7f58e832024⟩ = ⟨0x7721f45b5fe77cfa, 0xf2b6fe549d11ff60, 0x60a0d821c659324b, 0xf6e781557e050633⟩ := by decide

theorem zy1 : ziter 64 ⟨0x48b4b663b41b8aa0, 0x2719d96292ac2ef5, 0x20e7abe133706d55, 0xa7fef25f5f0fcd68⟩ = ⟨0x0de0ae8c0e1fa0ab, 0xeba093e1365b61d5, 0x5afb1169f1c3622d, 0x98095087b64fdbbc⟩ := by decide

theorem zy2 : ziter 64 ⟨0x0de0ae8c0e1fa0ab, 0xeba093e1365b61d5, 0x5afb1169f1c3622d, 0x98095087b64fdbbc⟩ = ⟨0x98b05bd4963636af, 0xf95427a647987063, 0xe3cb8cb14027117c, 0xeb742875b490bb7e⟩ := by decide

theorem zy3 : ziter 64 ⟨0x98b05bd4963636af, 0xf95427a647987063, 0xe3cb8cb14027117c, 0xeb742875b490bb7e⟩ = ⟨0x8816ddb70da0d999, 0x81ce69e7e17938f2, 0x71db229ae7c0b7c6, 0x44b6f15fa1b36d98⟩ := by decide

theorem zy4 : ziter 64 ⟨0x8816ddb70da0d999, 0x81ce69e7e17938f2, 0x71db229ae7c0b7c6, 0x44b6f15fa1b36d98⟩ = ⟨0x8ee9c20062cca1bf, 0xd4560735831139bb, 0x09046719fcff81db, 0xc9a28a0aec2a4607⟩ := by decide

theorem zy5 : ziter 64 ⟨0x8ee9c20062cca1bf, 0xd4560735831139bb, 0x09046719fcff81db, 0xc9a28a0aec2a4607⟩ = ⟨0xc450d78f6a2895a6, 0x06eabd10633cb554, 0xd3c0442096b87328, 0xc539456f70901a04⟩ := by decide

theorem zy6 : ziter 64 ⟨0xc450d78f6a2895a6, 0x06eabd10633cb554, 0xd3c0442096b87328, 0xc539456f70901a04⟩ = ⟨0x561ae37d679d5308, 0x0ade7c2067766d40, 0x9753941a3bdc835c, 0x0d1b9e8441a3d026⟩ := by decide

theorem zy7 : ziter 64 ⟨0x561ae37d679d5308, 0x0ade7c2067766d40, 0x9753941a3bdc835c, 0x0d1b9e8441a3d026⟩ = ⟨0xeb5c4812333aa4c2, 0xba5c5e89f5786ae8, 0x485caa3cda3b717b, 0x7265f01c8dcfabc4⟩ := by decide

theorem zy8 : ziter 63 ⟨0xeb5c4812333aa4c2, 0xba5c5e89f5786ae8, 0x485caa3cda3b717b, 0x7265f01c8dcfabc4⟩ = ⟨0x84af6106e4e7acc8, 0xf4068a307cdf75ac, 0x380d94a42e83dd41, 0x8e8c489076164ced⟩ := by decide

theorem zw1 : ziter 64 ⟨0x2bcaa1a8d33447c7, 0xbb91fc7de7c920b9, 0x80d14433f1dfcf6f, 0xb58f907bb67bd0ee⟩ = ⟨0xa8ac3c25f30acc03, 0x781f7e2bd7ef86fe, 0xf2e922a126ac08cc, 0x0b9ddf9cde371511⟩ := by decide

theorem zw2 : ziter 64 ⟨0xa8ac3c25f30acc03, 0x781f7e2bd7ef86fe, 0xf2e922a126ac08cc, 0x0b9ddf9cde371511⟩ = ⟨0x056c18970385d769, 0x6bb3e115c8d24b2f, 0x91f32886ed54cb55, 0x9af7be9d5e0c6caa⟩ := by decide

theorem zw3 : ziter 64 ⟨0x056c18970385d769, 0x6bb3e115c8d24b2f, 0x91f32886ed54cb55, 0x9af7be9d5e0c6caa⟩ = ⟨0xf9fae02b472d074f, 0x94f7f2f4faf3da8c, 0x8481fa1db3830287, 0x7b92a170f406eb1d⟩ := by decide

theorem zw4 : ziter 64 ⟨0xf9fae02b472d074f, 0x94f7f2f4faf3da8c, 0x8481fa1db3830287, 0x7b92a170f406eb1d⟩ = ⟨0x564c64d1ecc8147b, 0xc55a8a60a31b53c8, 0x3612908c6572e862, 0xa0db9a5edacb3fc3⟩ := by decide

theorem zw5 : ziter 64 ⟨0x564c64d1ecc8147b, 0xc55a8a60a31b53c8, 0x3612908c6572e862, 0xa0db9a5edacb3fc3⟩ = ⟨0x9a7e05dc58a2135b, 0xd94f503d793f8f7c, 0x690061eaa183b926, 0xb856faa7cc084f74⟩ := by decide

theorem zw6 : ziter 64 ⟨0x9a7e05dc58a2135b, 0xd94f503d793f8f7c, 0x690061eaa183b926, 0xb856faa7cc084f74⟩ = ⟨0xdc8d1ab32b7149bd, 0x094f1a5d214931d2, 0x3381c7a472262f16, 0x646ae9b990795460⟩ := by decide

theorem zw7 : ziter 64 ⟨0xdc8d1ab32b7149bd, 0x094f1a5d214931d2, 0x3381c7a472262f16, 0x646ae9b990795460⟩ = ⟨0xbb98906e79d6145c, 0x643306a6d82202c3, 0x9712704669ad74db, 0xfafabcc120df352c⟩ := by decide

theorem zw8 : ziter 63 ⟨0xbb98906e79d6145c, 0x643306a6d82202c3, 0x9712704669ad74db, 0xfafabcc120df352c⟩ = ⟨0xec4886952010bbb3, 0xa135ed7e8f6ed05b, 0x055c590e1f7f7618, 0xbfa0264f40b0a12c⟩ := by decide

theorem ziter511_x : ziter 511 ⟨0x86b63a61741b92a0, 0x27199fe1436c2cf5, 0xe127a9e133702f56, 0xe9b47e5cdf07d758⟩ = ⟨0x7721f45b5fe77cfa, 0xf2b6fe549d11ff60, 0x60a0d821c659324b, 0xf6e781557e050633⟩ := by
  rw [show (511 : Nat) = 64 + 447 from rfl, ziter_add, zx1,
    show (447 : Nat) = 64 + 383 from rfl, ziter_add, zx2,
    show (383 : Nat) = 64 + 319 from rfl, ziter_add, zx3,
    show (319 : Nat) = 64 + 255 from rfl, ziter_add, zx4,
    show (255 : Nat) = 64 + 191 from rfl, ziter_add, zx5,
    show (191 : Nat) = 64 + 127 from rfl, ziter_add, zx6,
    show (127 : Nat) = 64 + 63 from rfl, ziter_add, zx7, zx8]

theorem ziter511_y : ziter 511 ⟨0x48b4b663b41b8aa0, 0x2719d96292ac2ef5, 0x20e7abe133706d55, 0xa7fef25f5f0fcd68⟩ = ⟨0x84af6106e4e7acc8, 0xf4068a307cdf75ac, 0x380d94a42e83dd41, 0x8e8c489076164ced⟩ := by
  rw [show (511 : Nat) = 64 + 447 from rfl, ziter_add, zy1,
    show (447 : Nat) = 64 + 383 from rfl, ziter_add, zy2,
    show (383 : Nat) = 64 + 319 from rfl, ziter_add, zy3,
    show (319 : Nat) = 64 + 255 from rfl, ziter_add, zy4,
    show (255 : Nat) = 64 + 191 from rfl, ziter_add, zy5,
    show (191 : Nat) = 64 + 127 from rfl, ziter_add, zy6,
    show (127 : Nat) = 64 + 63 from rfl, ziter_add, zy7, zy8]

theorem ziter511_w : ziter 511 ⟨0x2bcaa1a8d33447c7, 0xbb91fc7de7c920b9, 0x80d14433f1dfcf6f, 0xb58f907bb67bd0ee⟩ = ⟨0xec4886952010bbb3, 0xa135ed7e8f6ed05b, 0x055c590e1f7f7618, 0xbfa0264f40b0a12c⟩ := by
  rw [show (511 : Nat) = 64 + 447 from rfl, ziter_add, zw1,
    show (447 : Nat) = 64 + 383 from rfl, ziter_add, zw2,
    show (383 : Nat) = 64 + 319 from rfl, ziter_add, zw3,
    show (319 : Nat) = 64 + 255 from rfl, ziter_add, zw4,
    show (255 : Nat) = 64 + 191 from rfl, ziter_add, zw5,
    show (191 : Nat) = 64 + 127 from rfl, ziter_add, zw6,
    show (127 : Nat) = 64 + 63 from rfl, ziter_add, zw7, zw8]

theorem fold_first_word_x : List.foldl sipPush ⟨sipInit 0 0, 0, 0, 0⟩ [1, 2, 0, 0, 0, 0, 0, 0] =
    ⟨⟨0x86b63a61741b92a0, 0x27199fe1436c2cf5, 0xe127a9e133702f56, 0xe9b47e5cdf07d758⟩, 0, 0, 8⟩ := by
  decide

theorem fold_first_word_y : List.foldl sipPush ⟨sipInit 0 0, 0, 0, 0⟩ [1, 0, 0, 0, 0, 0, 0, 0] =
    ⟨⟨0x48b4b663b41b8aa0, 0x2719d96292ac2ef5, 0x20e7abe133706d55, 0xa7fef25f5f0fcd68⟩, 0, 0, 8⟩ := by
  decide

theorem fold_second_word_y : List.foldl sipPush
    (⟨⟨0x84af6106e4e7acc8, 0xf4068a307cdf75ac, 0x380d94a42e83dd41, 0x8e8c489076164ced⟩, 0, 0, 4096⟩ : SipStream)
    [2, 0, 0, 0, 0, 0, 0, 0] =
    ⟨⟨0x2bcaa1a8d33447c7, 0xbb91fc7de7c920b9, 0x80d14433f1dfcf6f, 0xb58f907bb67bd0ee⟩, 0, 0, 4104⟩ := by
  decide

/-- Digest of content `[1, 2]` when a single read returns both bytes. -/
theorem hash_one_read : hash_file_chunks [[1, 2]] = 0x74a48a68c083c2524ce59eeb408bc3de := by
  show sipFinish (List.foldl sipPush ⟨sipInit 0 0, 0, 0, 0⟩
    (hasherInput (List.replicate hash_buffer_size 0) [[1, 2]])) = _
  rw [msg_one_read, List.foldl_append, fold_first_word_x, foldl_zeros, ziter511_x]
  decide

/-- Digest of the same content `[1, 2]` when two reads return one byte each. -/
theorem hash_two_reads : hash_file_chunks [[1], [2]] = 0xf9391a8e621ee012e969121140fccd46 := by
  show sipFinish (List.foldl sipPush ⟨sipInit 0 0, 0, 0, 0⟩
    (hasherInput (List.replicate hash_buffer_size 0) [[1], [2]])) = _
  rw [msg_two_reads, List.foldl_append, List.foldl_append, List.foldl_append,
    fold_first_word_y, foldl_zeros, ziter511_y,
    show (8 + 8 * 511 : Nat) = 4096 from rfl, fold_second_word_y, foldl_zeros, ziter511_w]
  decide

/-- C1: the spec demands that the digest not depend on how the byte content is
split into read chunks; the code feeds the whole 4096-byte buffer to the
hasher after every read, so the same two-byte content hashed as one two-byte
read and as two one-byte reads yields different digests. -/
theorem chunking_changes_digest :
    IsChunking [1, 2] [[1, 2]] ∧ IsChunking [1, 2] [[1], [2]] ∧
      hash_file_chunks [[1, 2]] ≠ hash_file_chunks [[1], [2]] := by
  refine ⟨by decide, by decide, ?_⟩
  rw [hash_one_read, hash_two_reads]
  decide

/-- The hasher input for content `[65]` and content `[65, 0]`, each delivered
by one read, is the very same 4096-byte buffer snapshot. -/
theorem msg_collision : hasherInput (List.replicate hash_buffer_size 0) [[65]] =
    hasherInput (List.replicate hash_buffer_size 0) [[65, 0]] := by
  show ([65] ++ (List.replicate hash_buffer_size 0).drop 1) ++ [] =
    ([65, 0] ++ (List.replicate hash_buffer_size 0).drop 2) ++ []
  rw [show hash_buffer_size = 1 + 4095 from rfl, replicate_drop,
    show (1 + 4095 : Nat) = 2 + 4094 from rfl, replicate_drop,
    show (4095 : Nat) = 1 + 4094 from rfl, List.replicate_add]
  rfl

/-- C2: distinct contents `[65]` ("A") and `[65, 0]` ("A" plus a NUL byte)
receive identical digests, because the unread remainder of the 4096-byte
buffer (zeros) is hashed along with the content. -/
theorem zero_padding_collision :
    ([65] : List Nat) ≠ [65, 0] ∧ IsChunking [65] [[65]] ∧ IsChunking [65, 0] [[65, 0]] ∧
      hash_file_chunks [[65]] = hash_file_chunks [[65, 0]] := by
  refine ⟨by decide, by decide, by decide, ?_⟩
  show siphash128 0 0 (hasherInput (List.replicate hash_buffer_size 0) [[65]]) = _
  rw [msg_collision]
  rfl

/-! Timestamp formatter (`get_timestamp`, `src/main.rs` lines 144-156).
`Utc::now()` is modelled by a record of the values chrono's field accessors
return.  Chrono can represent years far beyond 9999 (and negative years,
which the `Nat` fields here do not cover), and during a leap second its
subsecond-milliseconds accessor returns values of 1000 and above; the
in-range hypotheses of the theorems below make these limits explicit. -/

/-- Calendar field values for a UTC instant, as returned by chrono's
`year`, `month`, `day`, `hour`, `minute`, `second` and
`timestamp_subsec_millis` accessors. -/
structure DateTime where
  year : Nat
  month : Nat
  day : Nat
  hour : Nat
  minute : Nat
  second : Nat
  millis : Nat
  deriving DecidableEq

/-- The character for one decimal digit. -/
def digitChar (d : Nat) : Char := Char.ofNat (48 + d)

/-- Fuel-driven count of decimal digits (at least 1, also for 0). -/
def numDigitsAux : Nat → Nat → Nat
  | 0, _ => 1
  | fuel + 1, n => if n < 10 then 1 else numDigitsAux fuel (n / 10) + 1

/-- Number of decimal digits Rust prints for the unsigned value `n`. -/
def numDigits (n : Nat) : Nat := numDigitsAux n n

/-- The `w` low decimal digits of `n`, most significant first. -/
def padDigits : Nat → Nat → List Nat
  | 0, _ => []
  | w + 1, n => n / 10 ^ w % 10 :: padDigits w n

/-- Rust `{:0w}` formatting of an unsigned integer: the decimal digits of
`n`, left-padded with zeros to a total width of at least `w`. -/
def rustZeroPad (w n : Nat) : List Char := (padDigits (max w (numDigits n)) n).map digitChar

/-- Embedding of `get_timestamp`: the format string
`{:04}{:02}{:02}{:02}{:02}{:02}{:03}` applied to the seven UTC fields. -/
def get_timestamp (t : DateTime) : String :=
  ⟨rustZeroPad 4 t.year ++ rustZeroPad 2 t.month ++ rustZeroPad 2 t.day ++
    rustZeroPad 2 t.hour ++ rustZeroPad 2 t.minute ++ rustZeroPad 2 t.second ++
    rustZeroPad 3 t.millis⟩

/-- The accessor values of a real UTC instant with a four-digit year:
month 1-12, day 1-31, hour 0-23, minute and second 0-59 (chrono never
reports 60; leap seconds surface in the milliseconds), millisecond 0-999
(not during a leap second), year at most 9999. -/
def ValidDateTime (t : DateTime) : Prop :=
  t.year ≤ 9999 ∧ 1 ≤ t.month ∧ t.month ≤ 12 ∧ 1 ≤ t.day ∧ t.day ≤ 31 ∧
    t.hour ≤ 23 ∧ t.minute ≤ 59 ∧ t.second ≤ 59 ∧ t.millis ≤ 999

instance (t : DateTime) : Decidable (ValidDateTime t) :=
  inferInstanceAs (Decidable (_ ∧ _))

/-- Chronological order of two instants at millisecond resolution:
lexicographic on the calendar fields.  Two distinct instants at least one
millisecond apart have distinct field tuples, so the earlier one is smaller
in this order. -/
def TimeLt (a b : DateTime) : Prop :=
  a.year < b.year ∨ (a.year = b.year ∧ (a.month < b.month ∨ (a.month = b.month ∧
    (a.day < b.day ∨ (a.day = b.day ∧ (a.hour < b.hour ∨ (a.hour = b.hour ∧
      (a.minute < b.minute ∨ (a.minute = b.minute ∧ (a.second < b.second ∨
        (a.second = b.second ∧ a.millis < b.millis)))))))))))

instance (a b : DateTime) : Decidable (TimeLt a b) :=
  inferInstanceAs (Decidable (_ ∨ _))

theorem padDigits_length (w : Nat) : ∀ n, (padDigits w n).length = w := by
  induction w with
  | zero => intro n; rfl
  | succ w ih => intro n; simp [padDigits, ih n]

theorem padDigits_lt_ten (w : Nat) : ∀ n, ∀ d ∈ padDigits w n, d < 10 := by
  induction w with
  | zero => intro n d hd; simp [padDigits] at hd
  | succ w ih =>
    intro n d hd
    simp only [padDigits, List.mem_cons] at hd
    rcases hd with h | h
    · subst h; exact Nat.mod_lt _ (by omega)
    · exact ih n d h

theorem padDigits_mod (w : Nat) : ∀ n, padDigits w (n % 10 ^ w) = padDigits w n := by
  induction w with
  | zero => intro n; rfl
  | succ w ih =>
    intro n
    show n % 10 ^ (w + 1) / 10 ^ w % 10 :: padDigits w (n % 10 ^ (w + 1)) = _
    have hhead : n % 10 ^ (w + 1) / 10 ^ w % 10 = n / 10 ^ w % 10 := by
      have hp : (10 : Nat) ^ (w + 1) = 10 ^ w * 10 := by rw [Nat.pow_succ]
      rw [hp, Nat.mod_mul_right_div_self, Nat.mod_mod_of_dvd _ (by norm_num : (10 : Nat) ∣ 10)]
    have htail : padDigits w (n % 10 ^ (w + 1)) = padDigits w n := by
      have h1 : n % 10 ^ (w + 1) % 10 ^ w = n % 10 ^ w :=
        Nat.mod_mod_of_dvd n (pow_dvd_pow 10 (by omega))
      calc padDigits w (n % 10 ^ (w + 1))
          = padDigits w (n % 10 ^ (w + 1) % 10 ^ w) := (ih _).symm
        _ = padDigits w (n % 10 ^ w) := by rw [h1]
        _ = padDigits w n := ih n
    rw [hhead, htail]
    rfl

theorem padDigits_append (w1 w2 a b : Nat) (hb : b < 10 ^ w2) :
    padDigits (w1 + w2) (a * 10 ^ w2 + b) = padDigits w1 a ++ padDigits w2 b := by
  induction w1 generalizing a with
  | zero =>
    rw [Nat.zero_add]
    show padDigits w2 (a * 10 ^ w2 + b) = padDigits w2 b
    calc padDigits w2 (a * 10 ^ w2 + b)
        = padDigits w2 ((a * 10 ^ w2 + b) % 10 ^ w2) := (padDigits_mod _ _).symm
      _ = padDigits w2 (b % 10 ^ w2) := by
          rw [Nat.add_comm (a * 10 ^ w2) b, Nat.add_mul_mod_self_right]
      _ = padDigits w2 b := by rw [Nat.mod_eq_of_lt hb]
  | succ w1 ih =>
    have hs : w1 + 1 + w2 = (w1 + w2) + 1 := by omega
    rw [hs]
    show (a * 10 ^ w2 + b) / 10 ^ (w1 + w2) % 10 :: padDigits (w1 + w2) (a * 10 ^ w2 + b) = _
    have hdiv : (a * 10 ^ w2 + b) / 10 ^ (w1 + w2) = a / 10 ^ w1 := by
      have hp : (10 : Nat) ^ (w1 + w2) = 10 ^ w2 * 10 ^ w1 := by
        rw [← Nat.pow_add, Nat.add_comm]
      rw [hp, ← Nat.div_div_eq_div_mul]
      congr 1
      rw [Nat.mul_comm a (10 ^ w2), Nat.mul_add_div (Nat.pos_pow_of_pos w2 (by omega)),
        Nat.div_eq_of_lt hb, Nat.add_zero]
    rw [hdiv, ih]
    rfl

theorem one_le_numDigitsAux (fuel n : Nat) : 1 ≤ numDigitsAux fuel n := by
  cases fuel with
  | zero => exact Nat.le_refl 1
  | succ fuel =>
    show 1 ≤ if n < 10 then 1 else numDigitsAux fuel (n / 10) + 1
    split <;> omega

theorem numDigitsAux_le_iff : ∀ fuel n w, n ≤ fuel → 1 ≤ w →
    (numDigitsAux fuel n ≤ w ↔ n < 10 ^ w) := by
  intro fuel
  induction fuel with
  | zero =>
    intro n w hn hw
    have hn0 : n = 0 := by omega
    subst hn0
    exact iff_of_true hw (Nat.pos_pow_of_pos w (by omega))
  | succ fuel ih =>
    intro n w hn hw
    show (if n < 10 then 1 else numDigitsAux fuel (n / 10) + 1) ≤ w ↔ n < 10 ^ w
    have h10 : (10 : Nat) ≤ 10 ^ w := by
      calc (10 : Nat) = 10 ^ 1 := by norm_num
        _ ≤ 10 ^ w := Nat.pow_le_pow_right (by omega) hw
    split
    case isTrue h => exact iff_of_true hw (by omega)
    case isFalse h =>
      rcases Nat.lt_or_ge w 2 with hw2 | hw2
      · have hw1 : w = 1 := by omega
        subst hw1
        have haux := one_le_numDigitsAux fuel (n / 10)
        refine iff_of_false (by omega) ?_
        rw [pow_one]
        omega
      · have hdf : n / 10 ≤ fuel := by
          have := Nat.div_lt_self (show 0 < n by omega) (show 1 < 10 by omega)
          omega
        have ihh := ih (n / 10) (w - 1) hdf (by omega)
        have hsplit : n / 10 < 10 ^ (w - 1) ↔ n < 10 ^ w := by
          rw [Nat.div_lt_iff_lt_mul (by omega : (0 : Nat) < 10)]
          have hp : 10 ^ (w - 1) * 10 = 10 ^ w := by
            rw [← Nat.pow_succ]
            congr 1
            omega
          rw [hp]
        constructor
        · intro hle
          exact hsplit.mp (ihh.mp (by omega))
        · intro hlt
          have := ihh.mpr (hsplit.mpr hlt)
          omega

theorem numDigits_le_iff (n w : Nat) (hw : 1 ≤ w) : numDigits n ≤ w ↔ n < 10 ^ w :=
  numDigitsAux_le_iff n n w (Nat.le_refl n) hw

theorem rustZeroPad_eq (w n : Nat) (hw : 1 ≤ w) (h : n < 10 ^ w) :
    rustZeroPad w n = (padDigits w n).map digitChar := by
  unfold rustZeroPad
  rw [Nat.max_eq_left ((numDigits_le_iff n w hw).mpr h)]

theorem digitChar_lt_iff : ∀ a < 10, ∀ b < 10, (digitChar a < digitChar b ↔ a < b) := by decide

theorem digitChar_range : ∀ d < 10, '0' ≤ digitChar d ∧ digitChar d ≤ '9' := by decide

theorem padDigits_lex (w : Nat) : ∀ a b : Nat, a < 10 ^ w → b < 10 ^ w → a < b →
    List.Lex (· < ·) ((padDigits w a).map digitChar) ((padDigits w b).map digitChar) := by
  induction w with
  | zero =>
    intro a b ha hb hab
    rw [pow_zero] at ha
    omega
  | succ w ih =>
    intro a b ha hb hab
    have hpw : (0 : Nat) < 10 ^ w := Nat.pos_pow_of_pos w (by omega)
    have hps : (10 : Nat) ^ (w + 1) = 10 ^ w * 10 := by rw [Nat.pow_succ]
    have hda : a / 10 ^ w < 10 := by
      rw [Nat.div_lt_iff_lt_mul hpw]
      omega
    have hdb : b / 10 ^ w < 10 := by
      rw [Nat.div_lt_iff_lt_mul hpw]
      omega
    have hma : a / 10 ^ w % 10 = a / 10 ^ w := Nat.mod_eq_of_lt hda
    have hmb : b / 10 ^ w % 10 = b / 10 ^ w := Nat.mod_eq_of_lt hdb
    show List.Lex (· < ·) (digitChar (a / 10 ^ w % 10) :: (padDigits w a).map digitChar)
      (digitChar (b / 10 ^ w % 10) :: (padDigits w b).map digitChar)
    rcases Nat.lt_trichotomy (a / 10 ^ w) (b / 10 ^ w) with hlt | heq | hgt
    · apply List.Lex.rel
      rw [hma, hmb]
      exact (digitChar_lt_iff _ hda _ hdb).mpr hlt
    · have hchar : digitChar (a / 10 ^ w % 10) = digitChar (b / 10 ^ w % 10) := by
        rw [hma, hmb, heq]
      rw [hchar]
      apply List.Lex.cons
      rw [← padDigits_mod w a, ← padDigits_mod w b]
      apply ih
      · exact Nat.mod_lt _ hpw
      · exact Nat.mod_lt _ hpw
      · have ea := Nat.div_add_mod a (10 ^ w)
        have eb := Nat.div_add_mod b (10 ^ w)
        rw [heq] at ea
        generalize hq : 10 ^ w * (b / 10 ^ w) = q at ea eb
        omega
    · exfalso
      have hle : a / 10 ^ w ≤ b / 10 ^ w := Nat.div_le_div_right (Nat.le_of_lt hab)
      omega

/-- The seven calendar fields packed into one decimal number whose 17-digit
zero-padded decimal representation is exactly the timestamp string. -/
def timeKey (t : DateTime) : Nat :=
  (((((t.year * 100 + t.month) * 100 + t.day) * 100 + t.hour) * 100 + t.minute) * 100 +
    t.second) * 1000 + t.millis

theorem padDigits_split (w w1 w2 p a b : Nat) (hw : w = w1 + w2) (hp : (10 : Nat) ^ w2 = p)
    (hb : b < p) : padDigits w (a * p + b) = padDigits w1 a ++ padDigits w2 b := by
  subst hw
  rw [← hp] at hb ⊢
  exact padDigits_append w1 w2 a b hb

theorem get_timestamp_data (t : DateTime) (hv : ValidDateTime t) :
    (get_timestamp t).data = (padDigits 17 (timeKey t)).map digitChar := by
  obtain ⟨hy, hm1, hm2, hd1, hd2, hh, hmin, hs, hms⟩ := hv
  show rustZeroPad 4 t.year ++ rustZeroPad 2 t.month ++ rustZeroPad 2 t.day ++
      rustZeroPad 2 t.hour ++ rustZeroPad 2 t.minute ++ rustZeroPad 2 t.second ++
      rustZeroPad 3 t.millis = _
  rw [show timeKey t = (((((t.year * 100 + t.month) * 100 + t.day) * 100 + t.hour) * 100 +
      t.minute) * 100 + t.second) * 1000 + t.millis from rfl]
  rw [padDigits_split 17 14 3 1000 _ _ (by norm_num) (by norm_num) (by omega)]
  rw [padDigits_split 14 12 2 100 _ _ (by norm_num) (by norm_num) (by omega)]
  rw [padDigits_split 12 10 2 100 _ _ (by norm_num) (by norm_num) (by omega)]
  rw [padDigits_split 10 8 2 100 _ _ (by norm_num) (by norm_num) (by omega)]
  rw [padDigits_split 8 6 2 100 _ _ (by norm_num) (by norm_num) (by omega)]
  rw [padDigits_split 6 4 2 100 _ _ (by norm_num) (by norm_num) (by omega)]
  rw [rustZeroPad_eq 4 t.year (by omega) (by norm_num; omega)]
  rw [rustZeroPad_eq 2 t.month (by omega) (by norm_num; omega)]
  rw [rustZeroPad_eq 2 t.day (by omega) (by norm_num; omega)]
  rw [rustZeroPad_eq 2 t.hour (by omega) (by norm_num; omega)]
  rw [rustZeroPad_eq 2 t.minute (by omega) (by norm_num; omega)]
  rw [rustZeroPad_eq 2 t.second (by omega) (by norm_num; omega)]
  rw [rustZeroPad_eq 3 t.millis (by omega) (by norm_num; omega)]
  simp [List.map_append, List.append_assoc]

theorem get_timestamp_length (t : DateTime) (hv : ValidDateTime t) :
    (get_timestamp t).length = 17 := by
  show (get_timestamp t).data.length = 17
  rw [get_timestamp_data t hv, List.length_map, padDigits_length]

theorem get_timestamp_digits (t : DateTime) (hv : ValidDateTime t) :
    ∀ c ∈ (get_timestamp t).data, '0' ≤ c ∧ c ≤ '9' := by
  rw [get_timestamp_data t hv]
  intro c hc
  rw [List.mem_map] at hc
  obtain ⟨d, hd, rfl⟩ := hc
  exact digitChar_range d (padDigits_lt_ten _ _ d hd)

theorem timeKey_lt_bound (t : DateTime) (hv : ValidDateTime t) : timeKey t < 10 ^ 17 := by
  obtain ⟨hy, hm1, hm2, hd1, hd2, hh, hmin, hs, hms⟩ := hv
  have hp : (10 : Nat) ^ 17 = 100000000000000000 := by norm_num
  rw [hp]
  unfold timeKey
  omega

theorem timeKey_strict_mono (t1 t2 : DateTime) (h1 : ValidDateTime t1) (h2 : ValidDateTime t2)
    (hlt : TimeLt t1 t2) : timeKey t1 < timeKey t2 := by
  obtain ⟨hy, hm1, hm2, hd1, hd2, hh, hmin, hs, hms⟩ := h1
  obtain ⟨hy', hm1', hm2', hd1', hd2', hh', hmin', hs', hms'⟩ := h2
  unfold TimeLt at hlt
  unfold timeKey
  omega

theorem get_timestamp_lt (t1 t2 : DateTime) (h1 : ValidDateTime t1) (h2 : ValidDateTime t2)
    (hlt : TimeLt t1 t2) : get_timestamp t1 < get_timestamp t2 := by
  rw [String.lt_iff_toList_lt]
  show List.Lex (· < ·) (get_timestamp t1).data (get_timestamp t2).data
  rw [get_timestamp_data t1 h1, get_timestamp_data t2 h2]
  exact padDigits_lex 17 _ _ (timeKey_lt_bound t1 h1) (timeKey_lt_bound t2 h2)
    (timeKey_strict_mono t1 t2 h1 h2 hlt)

/-- C4, counterexample: chrono can represent instants in year 10000 (its year
range extends far beyond 9999), and for such an instant the formatter emits
18 characters (`{:04}` does not truncate a five-digit year), not 17. -/
theorem timestamp_year_10000_not_17_digits :
    (get_timestamp ⟨10000, 1, 1, 0, 0, 0, 0⟩).length = 18 := by decide

/-- C4 (amended): for instants whose calendar fields are in their usual
ranges with a year of at most four digits (year 0-9999, month 1-12,
day 1-31, hour 0-23, minute and second 0-59, millisecond 0-999), the
timestamp is exactly 17 ASCII digit characters, and for two such instants
at least one millisecond apart the earlier one sorts lexicographically
first. -/
theorem timestamp_fixed_width_sortable (t1 t2 : DateTime) (h1 : ValidDateTime t1)
    (h2 : ValidDateTime t2) (hlt : TimeLt t1 t2) :
    (get_timestamp t1).length = 17 ∧ (get_timestamp t2).length = 17 ∧
      (∀ c ∈ (get_timestamp t1).data, '0' ≤ c ∧ c ≤ '9') ∧
      (∀ c ∈ (get_timestamp t2).data, '0' ≤ c ∧ c ≤ '9') ∧
      get_timestamp t1 < get_timestamp t2 :=
  ⟨get_timestamp_length t1 h1, get_timestamp_length t2 h2, get_timestamp_digits t1 h1,
    get_timestamp_digits t2 h2, get_timestamp_lt t1 t2 h1 h2 hlt⟩

/-- Witness for C4's amended theorem at two concrete instants one
millisecond apart across a year boundary. -/
theorem timestamp_fixed_width_sortable_witness :
    (get_timestamp ⟨2024, 12, 31, 23, 59, 59, 999⟩).length = 17 ∧
      (get_timestamp ⟨2025, 1, 1, 0, 0, 0, 0⟩).length = 17 ∧
      (∀ c ∈ (get_timestamp ⟨2024, 12, 31, 23, 59, 59, 999⟩).data, '0' ≤ c ∧ c ≤ '9') ∧
      (∀ c ∈ (get_timestamp ⟨2025, 1, 1, 0, 0, 0, 0⟩).data, '0' ≤ c ∧ c ≤ '9') ∧
      get_timestamp ⟨2024, 12, 31, 23, 59, 59, 999⟩ < get_timestamp ⟨2025, 1, 1, 0, 0, 0, 0⟩ :=
  timestamp_fixed_width_sortable ⟨2024, 12, 31, 23, 59, 59, 999⟩ ⟨2025, 1, 1, 0, 0, 0, 0⟩
    (by decide) (by decide) (by decide)

/-! Command-line validation of the polling interval (`src/main.rs` lines
29-46 and 63-67).  clap validates the raw string with `parse::<u64>` and a
nonzero check; `main` then re-reads the same string and unwraps
`parse::<i64>`. -/

/-- Decimal value of an ASCII digit character, `none` for any other character. -/
def digitVal? (c : Char) : Option Nat :=
  if '0' ≤ c ∧ c ≤ '9' then some (c.toNat - 48) else none

/-- Decimal value of a run of characters; `none` as soon as a non-digit
appears. -/
def parseDigitsAux : List Char → Nat → Option Nat
  | [], acc => some acc
  | c :: cs, acc =>
    match digitVal? c with
    | some d => parseDigitsAux cs (10 * acc + d)
    | none => none

/-- Rust `str::parse::<u64>`: an optional leading `+`, then at least one
ASCII digit, and the value must fit in 64 bits (Rust reports overflow during
accumulation; checking the exact value against the bound at the end accepts
and rejects the same strings). -/
def parse_u64 (s : String) : Option Nat :=
  let cs := match s.data with
    | '+' :: rest => rest
    | cs => cs
  match cs with
  | [] => none
  | _ =>
    match parseDigitsAux cs 0 with
    | some v => if v < 2 ^ 64 then some v else none
    | none => none

/-- Rust `str::parse::<i64>`: an optional leading `+` or `-`, at least one
digit, and the value must lie in the `i64` range. -/
def parse_i64 (s : String) : Option Int :=
  let sc : Bool × List Char := match s.data with
    | '+' :: rest => (false, rest)
    | '-' :: rest => (true, rest)
    | cs => (false, cs)
  match sc.2 with
  | [] => none
  | _ =>
    match parseDigitsAux sc.2 0 with
    | some v =>
      if sc.1 then (if v ≤ 2 ^ 63 then some (-(v : Int)) else none)
      else (if v < 2 ^ 63 then some (v : Int) else none)
    | none => none

/-- The clap validator closure for `--interval` (`src/main.rs` lines 35-44):
`Err` for anything that does not parse as a `u64`, `Err` for zero, `Ok`
otherwise. -/
def interval_validator (s : String) : Except String Unit :=
  match parse_u64 s with
  | some v => if v = 0 then Except.error "must be greater than 0" else Except.ok ()
  | none => Except.error "must be parsable as u64"

/-- C6: the validator does reject zero and non-numeric strings with a usage
error and accepts ordinary positive values such as the default 5000, which
`main` then parses again as an `i64` and uses.  But for the positive
unsigned integer 2^63 = 9223372036854775808 the startup validation accepts
the interval while `main`'s `parse::<i64>().unwrap()` has no value to
return: the process panics instead of proceeding to poll with that
interval, contradicting the claim for values above `i64::MAX`. -/
theorem interval_validator_i64_mismatch :
    interval_validator "0" = Except.error "must be greater than 0" ∧
      interval_validator "abc" = Except.error "must be parsable as u64" ∧
      interval_validator "" = Except.error "must be parsable as u64" ∧
      interval_validator "5000" = Except.ok () ∧ parse_i64 "5000" = some 5000 ∧
      parse_u64 "9223372036854775808" = some (2 ^ 63) ∧
      interval_validator "9223372036854775808" = Except.ok () ∧
      parse_i64 "9223372036854775808" = none :=
  ⟨rfl, rfl, rfl, rfl, rfl, rfl, rfl, rfl⟩

/-! Change detector, backup writer and startup (`check_target`,
`src/main.rs` lines 100-124, and `main`'s lines 72-90). -/

/-- The mutable polling context captured by the repeating timer closure. -/
structure PollContext where
  watch_file : String
  cached_hash : Option Nat
  quiet : Bool
  deriving DecidableEq

/-- A backup artifact: where `fs::copy` wrote and what bytes it copied. -/
structure Backup where
  path : String
  content : List Nat
  deriving DecidableEq

/-- Observable outcome of one completed tick: the context afterwards, the
backup created (if any), and the lines printed to standard output. -/
structure TickOutput where
  ctx : PollContext
  backup : Option Backup
  log : List String
  deriving DecidableEq

/-- Lowercase hexadecimal digit characters, as Rust `{:x}` prints. -/
def hexDigitChar (d : Nat) : Char :=
  if d < 10 then Char.ofNat (48 + d) else Char.ofNat (87 + d)

/-- Fuel-driven count of hexadecimal digits (at least 1, also for 0). -/
def numHexAux : Nat → Nat → Nat
  | 0, _ => 1
  | fuel + 1, n => if n < 16 then 1 else numHexAux fuel (n / 16) + 1

/-- Number of hexadecimal digits Rust prints for the value `n`. -/
def numHexDigits (n : Nat) : Nat := numHexAux n n

/-- The `w` low hexadecimal digits of `n`, most significant first. -/
def padHexDigits : Nat → Nat → List Nat
  | 0, _ => []
  | w + 1, n => n / 16 ^ w % 16 :: padHexDigits w n

/-- Rust `{:#034x}`: the `0x` prefix and the hexadecimal digits, zero-padded
after the prefix to a total width of 34. -/
def fmt_hash (h : Nat) : String :=
  ⟨'0' :: 'x' :: (padHexDigits (max 32 (numHexDigits h)) h).map hexDigitChar⟩

/-- The line `check_target` prints in the no-baseline case. -/
def startingMsg (timestamp : String) (hash : Nat) : String :=
  "Making a starting backup. " ++ timestamp ++ ": " ++ fmt_hash hash

/-- The line `check_target` prints when the fingerprint changed. -/
def changedMsg (timestamp : String) (hash : Nat) : String :=
  "File changed! " ++ timestamp ++ ": " ++ fmt_hash hash

/-- Embedding of `check_target`.  The file-system interaction of one tick is
a parameter: `readResult` is the outcome of opening and reading the watched
file inside `hash_file` (`none` makes the `.expect` panic), `now` is the
instant `Utc::now()` returns, and `copyOk` tells whether `fs::copy`
succeeds.  A panic is modelled as `Except.error` carrying the `.expect`
message; it aborts the process, so no post-state exists for it.  The copied
content is the watched file's byte content — the concatenation of the read
chunks. -/
def check_target (poll_ctx : PollContext) (readResult : Option (List (List Nat)))
    (now : DateTime) (copyOk : Bool) : Except String TickOutput :=
  match readResult with
  | none => Except.error "Unable to hash file"
  | some chunks =>
    let hash := hash_file_chunks chunks
    if poll_ctx.cached_hash = none ∨ poll_ctx.cached_hash.iget ≠ hash then
      let timestamp := get_timestamp now
      let log : List String :=
        if !poll_ctx.quiet then
          if poll_ctx.cached_hash = none then [startingMsg timestamp hash]
          else [changedMsg timestamp hash]
        else []
      if copyOk then
        Except.ok ⟨{ poll_ctx with cached_hash := some hash },
          some ⟨poll_ctx.watch_file ++ "." ++ timestamp ++ ".bak", chunks.flatten⟩, log⟩
      else Except.error "Unable to copy a backup of file"
    else Except.ok ⟨poll_ctx, none, []⟩

/-- Embedding of `main`'s startup (lines 72-90): build the initial context
with an empty cache; with `--starting-backup` run one check immediately,
otherwise store `hash_file`'s result as the baseline — without inspecting
it — and print nothing. -/
def startup (watch_file : String) (quiet starting_backup : Bool)
    (readResult : Option (List (List Nat))) (now : DateTime) (copyOk : Bool) :
    Except String TickOutput :=
  let poll_ctx : PollContext := ⟨watch_file, none, quiet⟩
  if starting_backup then
    check_target poll_ctx readResult now copyOk
  else
    Except.ok ⟨{ poll_ctx with cached_hash := hash_file readResult }, none, []⟩

/-- C5: if the watched file cannot be opened or a read fails, `hash_file`
yields no digest, and the `.expect` panics with "Unable to hash file": the
tick aborts the whole process rather than being skipped — no backup is made
and no state survives. -/
theorem hash_failure_aborts_tick (poll_ctx : PollContext) (now : DateTime) (copyOk : Bool) :
    check_target poll_ctx none now copyOk = Except.error "Unable to hash file" := rfl

/-- C3: on every tick that completes normally, a backup was created exactly
when no fingerprint was cached or the freshly computed fingerprint differs
from the cached one; when the cached fingerprint equals the fresh one the
tick returns the context untouched, with no backup and no output; and after
any completed tick, a further tick over the same read chunks (unchanged
content, hence the same fingerprint) does nothing. -/
theorem backup_iff_fingerprint_change (poll_ctx : PollContext) (chunks : List (List Nat))
    (now : DateTime) (copyOk : Bool) (out : TickOutput)
    (hout : check_target poll_ctx (some chunks) now copyOk = Except.ok out) :
    (out.backup.isSome ↔
      (poll_ctx.cached_hash = none ∨ poll_ctx.cached_hash ≠ some (hash_file_chunks chunks))) ∧
    (poll_ctx.cached_hash = some (hash_file_chunks chunks) → out = ⟨poll_ctx, none, []⟩) ∧
    (∀ now2 copyOk2, check_target out.ctx (some chunks) now2 copyOk2 =
      Except.ok ⟨out.ctx, none, []⟩) := by
  have hsteady : ∀ (q : Bool) (wf : String) (now2 : DateTime) (copyOk2 : Bool),
      check_target ⟨wf, some (hash_file_chunks chunks), q⟩ (some chunks) now2 copyOk2 =
        Except.ok ⟨⟨wf, some (hash_file_chunks chunks), q⟩, none, []⟩ := by
    intro q wf now2 copyOk2
    simp only [check_target]
    split
    · rename_i h2
      exact absurd h2 (by simp [Option.iget])
    · rfl
  simp only [check_target] at hout
  split at hout
  · rename_i hcond
    split at hout
    · rename_i hcopy
      rw [Except.ok.injEq] at hout
      subst hout
      have hclaim : poll_ctx.cached_hash = none ∨
          poll_ctx.cached_hash ≠ some (hash_file_chunks chunks) := by
        rcases hcond with h | h
        · exact Or.inl h
        · right
          intro he
          rw [he] at h
          exact h (by rw [Option.iget])
      refine ⟨by simp [hclaim], ?_, ?_⟩
      · intro hsame
        exfalso
        rcases hcond with h | h
        · rw [hsame] at h
          exact absurd h (by simp)
        · rw [hsame] at h
          exact h (by rw [Option.iget])
      · intro now2 copyOk2
        show check_target ⟨poll_ctx.watch_file, some (hash_file_chunks chunks), poll_ctx.quiet⟩
          (some chunks) now2 copyOk2 = _
        exact hsteady _ _ _ _
    · exact absurd hout (by simp)
  · rename_i hcond
    rw [Except.ok.injEq] at hout
    subst hout
    push_neg at hcond
    obtain ⟨hne, hig⟩ := hcond
    have hsome : poll_ctx.cached_hash = some (hash_file_chunks chunks) := by
      rcases hcache : poll_ctx.cached_hash with _ | c
      · exact absurd hcache hne
      · rw [hcache] at hig
        rw [show (some c).iget = c from rfl] at hig
        rw [hig]
    refine ⟨by simp [hsome], fun _ => rfl, ?_⟩
    intro now2 copyOk2
    show check_target poll_ctx (some chunks) now2 copyOk2 = Except.ok ⟨poll_ctx, none, []⟩
    have hctx : poll_ctx = ⟨poll_ctx.watch_file, some (hash_file_chunks chunks), poll_ctx.quiet⟩ := by
      rcases poll_ctx with ⟨wf, ch, q⟩
      have h2 : ch = some (hash_file_chunks chunks) := hsome
      subst h2
      rfl
    rw [hctx]
    exact hsteady _ _ _ _

/-- Witness for C3 at a concrete no-baseline tick. -/
theorem backup_iff_fingerprint_change_witness :
    ((some (Backup.mk ("w" ++ "." ++ get_timestamp ⟨2024, 1, 2, 3, 4, 5, 6⟩ ++ ".bak") [5])).isSome ↔
      ((none : Option Nat) = none ∨ (none : Option Nat) ≠ some (hash_file_chunks [[5]]))) ∧
    ((none : Option Nat) = some (hash_file_chunks [[5]]) →
      (⟨⟨"w", some (hash_file_chunks [[5]]), false⟩,
        some ⟨"w" ++ "." ++ get_timestamp ⟨2024, 1, 2, 3, 4, 5, 6⟩ ++ ".bak", [5]⟩,
        [startingMsg (get_timestamp ⟨2024, 1, 2, 3, 4, 5, 6⟩) (hash_file_chunks [[5]])]⟩ :
        TickOutput) = ⟨⟨"w", none, false⟩, none, []⟩) ∧
    (∀ now2 copyOk2, check_target
      (⟨⟨"w", some (hash_file_chunks [[5]]), false⟩,
        some ⟨"w" ++ "." ++ get_timestamp ⟨2024, 1, 2, 3, 4, 5, 6⟩ ++ ".bak", [5]⟩,
        [startingMsg (get_timestamp ⟨2024, 1, 2, 3, 4, 5, 6⟩) (hash_file_chunks [[5]])]⟩ :
        TickOutput).ctx (some [[5]]) now2 copyOk2 =
      Except.ok ⟨(⟨⟨"w", some (hash_file_chunks [[5]]), false⟩,
        some ⟨"w" ++ "." ++ get_timestamp ⟨2024, 1, 2, 3, 4, 5, 6⟩ ++ ".bak", [5]⟩,
        [startingMsg (get_timestamp ⟨2024, 1, 2, 3, 4, 5, 6⟩) (hash_file_chunks [[5]])]⟩ :
        TickOutput).ctx, none, []⟩) :=
  backup_iff_fingerprint_change ⟨"w", none, false⟩ [[5]] ⟨2024, 1, 2, 3, 4, 5, 6⟩ true
    ⟨⟨"w", some (hash_file_chunks [[5]]), false⟩,
      some ⟨"w" ++ "." ++ get_timestamp ⟨2024, 1, 2, 3, 4, 5, 6⟩ ++ ".bak", [5]⟩,
      [startingMsg (get_timestamp ⟨2024, 1, 2, 3, 4, 5, 6⟩) (hash_file_chunks [[5]])]⟩ rfl

/-- C7: with `--starting-backup` the first check runs against an empty cache
and therefore always creates a backup (hashing and copy succeeding), whether
or not the file ever changes afterwards; without the option, startup merely
stores `hash_file`'s result as the baseline and creates no backup. -/
theorem starting_backup_first_tick (wf : String) (q : Bool) (chunks : List (List Nat))
    (now : DateTime) :
    (startup wf q true (some chunks) now true = Except.ok
      ⟨⟨wf, some (hash_file_chunks chunks), q⟩,
        some ⟨wf ++ "." ++ get_timestamp now ++ ".bak", chunks.flatten⟩,
        if q then [] else [startingMsg (get_timestamp now) (hash_file_chunks chunks)]⟩) ∧
    (∀ readResult copyOk, startup wf q false readResult now copyOk =
      Except.ok ⟨⟨wf, hash_file readResult, q⟩, none, []⟩) := by
  constructor
  · cases q <;> rfl
  · intro readResult copyOk
    rfl

/-- C8: every backup a tick creates is at exactly
`<watch-file>.<timestamp>.bak`, and its content is a byte-for-byte copy of
the watched file's content at detection time (the concatenation of the read
chunks, which is what `fs::copy` duplicates). -/
theorem backup_path_format_and_content (poll_ctx : PollContext) (chunks : List (List Nat))
    (now : DateTime) (copyOk : Bool) (out : TickOutput) (b : Backup)
    (hout : check_target poll_ctx (some chunks) now copyOk = Except.ok out)
    (hb : out.backup = some b) :
    b.path = poll_ctx.watch_file ++ "." ++ get_timestamp now ++ ".bak" ∧
      b.content = chunks.flatten := by
  simp only [check_target] at hout
  split at hout
  · split at hout
    · rw [Except.ok.injEq] at hout
      subst hout
      rw [Option.some.injEq] at hb
      subst hb
      exact ⟨rfl, rfl⟩
    · exact absurd hout (by simp)
  · rw [Except.ok.injEq] at hout
    subst hout
    exact absurd hb (by simp)

/-- Witness for C8 at a concrete no-baseline tick. -/
theorem backup_path_format_and_content_witness :
    (Backup.mk ("w" ++ "." ++ get_timestamp ⟨2024, 1, 2, 3, 4, 5, 6⟩ ++ ".bak") [7]).path =
      ("w" : String) ++ "." ++ get_timestamp ⟨2024, 1, 2, 3, 4, 5, 6⟩ ++ ".bak" ∧
    (Backup.mk ("w" ++ "." ++ get_timestamp ⟨2024, 1, 2, 3, 4, 5, 6⟩ ++ ".bak") [7]).content =
      [[7]].flatten :=
  backup_path_format_and_content ⟨"w", none, true⟩ [[7]] ⟨2024, 1, 2, 3, 4, 5, 6⟩ true
    ⟨⟨"w", some (hash_file_chunks [[7]]), true⟩,
      some ⟨"w" ++ "." ++ get_timestamp ⟨2024, 1, 2, 3, 4, 5, 6⟩ ++ ".bak", [7]⟩, []⟩
    ⟨"w" ++ "." ++ get_timestamp ⟨2024, 1, 2, 3, 4, 5, 6⟩ ++ ".bak", [7]⟩ rfl rfl

/-- C9: without `--starting-backup`, a failed initial hashing is not
reported and does not stop startup: the cache simply stays empty and
polling begins; the next tick whose hash and copy succeed then takes the
no-baseline branch — it creates a backup and logs the
"Making a starting backup" line (shown here with quiet off). -/
theorem initial_hash_failure_silent_baseline (wf : String) (q : Bool)
    (chunks : List (List Nat)) (now now2 : DateTime) (copyOk : Bool) :
    startup wf q false none now copyOk = Except.ok ⟨⟨wf, none, q⟩, none, []⟩ ∧
    check_target ⟨wf, none, false⟩ (some chunks) now2 true = Except.ok
      ⟨⟨wf, some (hash_file_chunks chunks), false⟩,
        some ⟨wf ++ "." ++ get_timestamp now2 ++ ".bak", chunks.flatten⟩,
        [startingMsg (get_timestamp now2) (hash_file_chunks chunks)]⟩ :=
  ⟨rfl, rfl⟩

/-- C10: on a tick that wants a backup but whose copy fails, the process
aborts through the `.expect` panic before `cached_hash` is assigned: the
state update happens only after a successful copy, so the cached fingerprint
is never updated on a copy error (and the only way a tick with a failing
copy returns normally is the no-change branch, which leaves the context
untouched). -/
theorem copy_failure_preserves_state (poll_ctx : PollContext) (chunks : List (List Nat))
    (now : DateTime)
    (hchange : poll_ctx.cached_hash = none ∨
      poll_ctx.cached_hash ≠ some (hash_file_chunks chunks)) :
    check_target poll_ctx (some chunks) now false =
      Except.error "Unable to copy a backup of file" ∧
    (∀ out, check_target poll_ctx (some chunks) now false = Except.ok out →
      out.ctx = poll_ctx) := by
  have hcond : poll_ctx.cached_hash = none ∨
      poll_ctx.cached_hash.iget ≠ hash_file_chunks chunks := by
    rcases hcache : poll_ctx.cached_hash with _ | c
    · exact Or.inl rfl
    · rw [hcache] at hchange
      rcases hchange with h | h
      · exact absurd h (by simp)
      · refine Or.inr ?_
        rw [show (some c).iget = c from rfl]
        intro heq
        exact h (by rw [heq])
  have herr : check_target poll_ctx (some chunks) now false =
      Except.error "Unable to copy a backup of file" := by
    simp only [check_target]
    split
    · rfl
    · rename_i h2
      exact absurd hcond h2
  refine ⟨herr, ?_⟩
  intro out hout
  rw [herr] at hout
  exact absurd hout (by simp)

/-- Witness for C10 at a concrete no-baseline tick whose copy fails. -/
theorem copy_failure_preserves_state_witness :
    check_target ⟨"w", none, false⟩ (some [[3]]) ⟨2024, 1, 2, 3, 4, 5, 6⟩ false =
      Except.error "Unable to copy a backup of file" ∧
    (∀ out, check_target ⟨"w", none, false⟩ (some [[3]]) ⟨2024, 1, 2, 3, 4, 5, 6⟩ false =
      Except.ok out → out.ctx = ⟨"w", none, false⟩) :=
  copy_failure_preserves_state ⟨"w", none, false⟩ [[3]] ⟨2024, 1, 2, 3, 4, 5, 6⟩ (Or.inl rfl)

end Watch
